import Mathlib

set_option maxHeartbeats 1000000

/- Verification development for the deal-generation and contact-reconciliation
core of the marketing-automation repository.  The deal side embeds
src/lib/engine/deal-generator/actions.ts; the contact side embeds the contact
generator module (generateContacts, mergeDuplicateContacts,
mergeContactProperties, normalizeContacts).  Collaborator code that is not part
of the provided sources (the Deal entity internals, the record mappers in
records.ts, the string helpers) is modelled from the specification and each
such definition is marked with a doc comment starting with
"Modelled from the spec". -/

namespace MarketingAutomation

/-! ## Deal-side data model -/

/-- Deal lifecycle stage: EVAL, CLOSED_WON, CLOSED_LOST, and other active
stages (represented here by an index), as described by the data model of the
specification. -/
inductive DealStage where
  | eval
  | closedWon
  | closedLost
  | otherActive (n : Nat)
deriving DecidableEq

/-- Modelled from the spec: the editable property bag of a Deal (DealData in
src/lib/model/deal.ts, which is not included under src/).  It carries the
stage, the addon-license id, the transaction id, and one abstract field
standing for the remaining record-driven editable properties. -/
structure DealData where
  dealStage : DealStage
  addonLicenseId : String
  transactionId : Option String
  otherEditable : String
deriving DecidableEq

/-- Modelled from the spec: a Deal tracks pending property changes versus its
last-synced snapshot, has a stable id (standing in for JavaScript object
identity), and a computed flag hasActivity (has ever left the eval stage).
The Deal class itself lives in src/lib/model/deal.ts, not included under
src/. -/
structure Deal where
  id : Nat
  data : DealData
  snapshot : DealData
  hasActivity : Bool
deriving DecidableEq

/-- Modelled from the spec: Deal.isEval checks whether the deal is currently
in the EVAL stage. -/
def Deal.isEval (d : Deal) : Bool :=
  decide (d.data.dealStage = DealStage.eval)

/-- The property-level diff of a deal against its last-synced snapshot: each
field is some value exactly when that property changed. -/
structure DealDiff where
  dealStage : Option DealStage
  addonLicenseId : Option String
  transactionId : Option (Option String)
  otherEditable : Option String
deriving DecidableEq

/-- Modelled from the spec: hasPropertyChanges compares the editable
properties against the last-synced snapshot. -/
def Deal.hasPropertyChanges (d : Deal) : Bool :=
  decide (d.data ≠ d.snapshot)

/-- Modelled from the spec: getPropertyChanges returns only the changed
user-editable properties, compared against the last-synced snapshot. -/
def getPropertyChanges (d : Deal) : DealDiff :=
  { dealStage :=
      if d.data.dealStage = d.snapshot.dealStage then none else some d.data.dealStage
    addonLicenseId :=
      if d.data.addonLicenseId = d.snapshot.addonLicenseId then none
      else some d.data.addonLicenseId
    transactionId :=
      if d.data.transactionId = d.snapshot.transactionId then none
      else some d.data.transactionId
    otherEditable :=
      if d.data.otherEditable = d.snapshot.otherEditable then none
      else some d.data.otherEditable }

/-! ## Source records (licenses and transactions)

These mirror the record shapes consumed by the two engines: identifiers,
contact blocks, hosting, active flag and timestamps. -/

structure ContactInfo where
  email : String
  name : Option String
  phone : Option String
  city : Option String
  state : Option String
deriving DecidableEq

structure ContactDetails where
  technicalContact : ContactInfo
  billingContact : Option ContactInfo
  country : String
  region : String
deriving DecidableEq

structure PartnerDetails where
  billingContact : ContactInfo
deriving DecidableEq

structure License where
  addonLicenseId : String
  active : Bool
  maintenanceStartDate : String
  lastUpdated : String
  hosting : String
  contactDetails : ContactDetails
  partnerDetails : Option PartnerDetails
deriving DecidableEq

structure PurchaseDetails where
  hosting : String
  saleDate : String
deriving DecidableEq

structure Transaction where
  transactionId : String
  addonLicenseId : String
  customerDetails : ContactDetails
  partnerDetails : Option PartnerDetails
  purchaseDetails : PurchaseDetails
deriving DecidableEq

/-- A source record handed to the deal record mapper: a license or a
transaction. -/
inductive MpacRecord where
  | license (l : License)
  | transaction (t : Transaction)
deriving DecidableEq

/-- Modelled from the spec: the record mapper derives the record-driven deal
properties deterministically from the given record; the exact field set is a
collaborator detail, abstracted here as one string derived from the record
identifier. -/
def recordPayload : MpacRecord → String
  | .license l => l.addonLicenseId
  | .transaction t => t.transactionId

/-- Modelled from the spec: updateDeal (src/lib/engine/deal-generator/records.ts,
not included under src/) mutates the record-driven editable properties of the
deal from the record without touching identity or stage. -/
def updateDeal (deal : Deal) (record : MpacRecord) : Deal :=
  { deal with data := { deal.data with otherEditable := recordPayload record } }

/-- The stage and id arguments passed to dealCreationProperties by the action
generator. -/
structure DealCreationArgs where
  dealStage : DealStage
  addonLicenseId : String
  transactionId : Option String
deriving DecidableEq

/-- Modelled from the spec: dealCreationProperties builds the full property
set for a new deal from a record plus the desired stage and ids; the passed
stage and ids become the corresponding properties, and the remaining
record-driven properties are deterministic in the record. -/
def dealCreationProperties (record : MpacRecord) (args : DealCreationArgs) : DealData :=
  { dealStage := args.dealStage
    addonLicenseId := args.addonLicenseId
    transactionId := args.transactionId
    otherEditable := recordPayload record }

/-! ## Events and actions (from actions.ts)

The recordSeen bookkeeping of the generator (the handledDeals map) only feeds
the duplicate-update diagnostic log and never influences the produced actions
or the manager state, so it is not carried in the embedded state.  The deal
lookups (dealManager.getDealsForRecords) live in the external DealManager
collaborator; each handler below therefore takes the lookup result as the
foundDeals argument. -/

/-- An opaque handle for the RelatedLicenseSet attached to every event; its
structure is supplied by the external license-matching collaborator and is
only echoed back on actions, so it is represented by a plain index. -/
abbrev RelatedLicenseSet := Nat

structure EvalEvent where
  groups : RelatedLicenseSet
  licenses : List License
deriving DecidableEq

structure PurchaseEvent where
  groups : RelatedLicenseSet
  licenses : List License
  transaction : Option Transaction
deriving DecidableEq

structure RenewalEvent where
  groups : RelatedLicenseSet
  transaction : Transaction
deriving DecidableEq

structure RefundEvent where
  groups : RelatedLicenseSet
  refundedTxs : List Transaction
deriving DecidableEq

/-- The action generator output: Create, Update or Noop, as declared in
actions.ts. -/
inductive Action where
  | create (groups : RelatedLicenseSet) (properties : DealData)
  | update (groups : RelatedLicenseSet) (deal : Deal) (properties : DealDiff)
  | noop (groups : RelatedLicenseSet) (deal : Deal)
deriving DecidableEq

/-- The state owned jointly by the action generator and the DealManager: the
live deal collection, the duplicatesToDelete map (deleted deal to the set of
kept deals it duplicated, keyed by deal identity), and the warnings emitted by
the logging collaborator (each warning carries the list of deals reported). -/
structure GenState where
  deals : List Deal
  duplicatesToDelete : List (Deal × List Deal)
  warnings : List (List Deal)
deriving DecidableEq

/-- DealManager.removeLocally: evict the given deals from the live set
(deals are compared by identity, represented by id). -/
def removeLocally (live : List Deal) (toDelete : List Deal) : List Deal :=
  live.filter (fun d => !(toDelete.any (fun t => t.id == d.id)))

/-- One step of the duplicatesToDelete bookkeeping in singleDeal: look up the
entry of the deleted deal, create it with an empty set when absent, and add
the kept deal to it (accumulating, never overwriting). -/
def addDupOf (m : List (Deal × List Deal)) (t kept : Deal) : List (Deal × List Deal) :=
  match m with
  | [] => [(t, [kept])]
  | e :: rest =>
    if e.1.id == t.id then
      (e.1, if e.2.any (fun k => k.id == kept.id) then e.2 else e.2 ++ [kept]) :: rest
    else
      e :: addDupOf rest t kept

/-- The loop over toDelete in singleDeal recording each deleted deal as a
duplicate of the kept deal. -/
def recordDuplicates (m : List (Deal × List Deal)) (toDelete : List Deal)
    (kept : Deal) : List (Deal × List Deal) :=
  toDelete.foldl (fun m t => addDupOf m t kept) m

/-- Whether the duplicatesToDelete map has an entry keyed by the deal with the
given id. -/
def dupHasKey (m : List (Deal × List Deal)) (i : Nat) : Bool :=
  m.any (fun e => e.1.id == i)

/-- The pure core of ActionGenerator.singleDeal: from the set of found deals
(a JavaScript Set, represented as a duplicate-free list in insertion order)
compute the deal to use, the local toDelete list, and the deal lists reported
by log.warn.  With more than one match, the subset with activity is computed;
if it is empty the first found deal is kept and the rest deleted; otherwise
the first important deal is kept, a warning is emitted when more than one
deal has activity, and exactly the deals outside the important subset are
marked for deletion. -/
def singleDealCore (foundDeals : List Deal) : Option Deal × List Deal × List (List Deal) :=
  match foundDeals with
  | [] => (none, [], [])
  | [d] => (some d, [], [])
  | d0 :: d1 :: rest =>
    match (d0 :: d1 :: rest).filter (fun d => d.hasActivity) with
    | [] => (some d0, d1 :: rest, [])
    | imp0 :: impRest =>
      let importantDeals := imp0 :: impRest
      let toDelete := (d0 :: d1 :: rest).filter
        (fun d => !(importantDeals.any (fun i => i.id == d.id)))
      let warns : List (List Deal) := if impRest.isEmpty then [] else [importantDeals]
      (some imp0, toDelete, warns)

/-- ActionGenerator.singleDeal: resolve a set of found deals to at most one
deal; in the duplicate case the deals to delete are removed from the live
deal collection via removeLocally and recorded in duplicatesToDelete. -/
def singleDeal (s : GenState) (foundDeals : List Deal) : Option Deal × GenState :=
  match foundDeals with
  | [] => (none, s)
  | [d] => (some d, s)
  | d0 :: d1 :: rest =>
    match singleDealCore (d0 :: d1 :: rest) with
    | (some kept, toDelete, warns) =>
      (some kept,
        { deals := removeLocally s.deals toDelete
          duplicatesToDelete := recordDuplicates s.duplicatesToDelete toDelete kept
          warnings := s.warnings ++ warns })
    | (none, _, _) => (none, s)

/-- makeUpdateAction from actions.ts: apply the stage change when one is
passed, apply the record-driven updates when a record is passed, then return
Noop when no properties changed and otherwise Update with only the changed
properties. -/
def makeUpdateAction (groups : RelatedLicenseSet) (deal : Deal)
    (record : Option MpacRecord) (dealstage : Option DealStage) : Action :=
  let deal1 :=
    match dealstage with
    | some st => { deal with data := { deal.data with dealStage := st } }
    | none => deal
  let deal2 :=
    match record with
    | some r => updateDeal deal1 r
    | none => deal1
  if deal2.data = deal2.snapshot then Action.noop groups deal2
  else Action.update groups deal2 (getPropertyChanges deal2)

/-- Lexicographic strict comparison of character lists by code point,
mirroring the JavaScript string comparison used by the sorter helper. -/
def charListLt : List Char → List Char → Bool
  | [], [] => false
  | [], _ :: _ => true
  | _ :: _, [] => false
  | a :: as, b :: bs =>
    if a.toNat < b.toNat then true
    else if b.toNat < a.toNat then false
    else charListLt as bs

/-- Non-strict lexicographic string comparison by code point. -/
def strLeB (a b : String) : Bool :=
  !(charListLt b.data a.data)

/-- The stable descending insertion sort used to model the sorter helper from
util/helpers (not included under src/): sort by a string key, most recent
first, preserving the relative order of records with equal keys as the
JavaScript stable Array.prototype.sort does.  Modelled from the spec. -/
def insertByDsc {α : Type} (key : α → String) (x : α) : List α → List α
  | [] => [x]
  | y :: ys => if strLeB (key y) (key x) then x :: y :: ys else y :: insertByDsc key x ys

/-- Stable sort, descending by the given string key. -/
def sortByDsc {α : Type} (key : α → String) : List α → List α
  | [] => []
  | x :: xs => insertByDsc key x (sortByDsc key xs)

/-- getLatestLicense from actions.ts: the event licenses sorted by
maintenance-start-date descending, first element (none when the purchase
event carries no license, where the source would read an undefined value). -/
def getLatestLicense (event : PurchaseEvent) : Option License :=
  (sortByDsc (fun l => l.maintenanceStartDate) event.licenses).head?

/-- ActionGenerator.actionForEval.  The deal lookup result
(dealManager.getDealsForRecords over the event licenses) is passed in as
foundDeals since the lookup lives in the external DealManager collaborator.
Returns none exactly where the source would crash reading
latestLicense.data on an event with no license; in the matched branches an
absent latest license is passed through as an absent record, matching the
falsy-record guard in makeUpdateAction. -/
def actionForEval (s : GenState) (foundDeals : List Deal) (event : EvalEvent) :
    Option (Action × GenState) :=
  match singleDeal s foundDeals with
  | (deal?, s1) =>
    let latest? := event.licenses.getLast?
    match deal? with
    | none =>
      match latest? with
      | none => none
      | some latest =>
        some (Action.create event.groups (dealCreationProperties (.license latest)
          { dealStage :=
              if event.licenses.any (fun l => l.active) then DealStage.eval
              else DealStage.closedLost
            addonLicenseId := latest.addonLicenseId
            transactionId := none }), s1)
    | some deal =>
      if deal.isEval then
        let stage :=
          if event.licenses.any (fun l => l.active) then DealStage.eval
          else DealStage.closedLost
        some (makeUpdateAction event.groups deal (latest?.map .license) (some stage), s1)
      else
        some (makeUpdateAction event.groups deal (latest?.map .license) none, s1)

/-- ActionGenerator.actionForPurchase, with the lookup result passed in.
With a match, the record is the transaction when present and otherwise the
latest license, and the stage becomes CLOSED_WON exactly when the matched
deal is in EVAL, otherwise its current stage is passed back unchanged.
Without a match, Create from the transaction when present, else from the
latest license (none where the source would crash on an event with neither
a transaction nor a license). -/
def actionForPurchase (s : GenState) (foundDeals : List Deal) (event : PurchaseEvent) :
    Option (Action × GenState) :=
  match singleDeal s foundDeals with
  | (some deal, s1) =>
    let record? : Option MpacRecord :=
      match event.transaction with
      | some t => some (.transaction t)
      | none => (getLatestLicense event).map .license
    let stage := if deal.isEval then DealStage.closedWon else deal.data.dealStage
    some (makeUpdateAction event.groups deal record? (some stage), s1)
  | (none, s1) =>
    match event.transaction with
    | some t =>
      some (Action.create event.groups (dealCreationProperties (.transaction t)
        { dealStage := DealStage.closedWon
          addonLicenseId := t.addonLicenseId
          transactionId := some t.transactionId }), s1)
    | none =>
      (getLatestLicense event).map (fun l =>
        (Action.create event.groups (dealCreationProperties (.license l)
          { dealStage := DealStage.closedWon
            addonLicenseId := l.addonLicenseId
            transactionId := none }), s1))

/-- ActionGenerator.actionForRenewal (also used for upgrade events), with the
lookup result passed in. -/
def actionForRenewal (s : GenState) (foundDeals : List Deal) (event : RenewalEvent) :
    Action × GenState :=
  match singleDeal s foundDeals with
  | (some deal, s1) =>
    (makeUpdateAction event.groups deal (some (.transaction event.transaction)) none, s1)
  | (none, s1) =>
    (Action.create event.groups (dealCreationProperties (.transaction event.transaction)
      { dealStage := DealStage.closedWon
        addonLicenseId := event.transaction.addonLicenseId
        transactionId := some event.transaction.transactionId }), s1)

/-- ActionGenerator.actionsForRefund, with the lookup result over the
refunded transactions passed in: for each found deal whose stage is not
already CLOSED_LOST, emit the makeUpdateAction result for stage CLOSED_LOST
with a null record.  The isPresent filter of the source never drops an
element since makeUpdateAction is total, so it is omitted. -/
def actionsForRefund (foundDeals : List Deal) (event : RefundEvent) : List Action :=
  (foundDeals.filter (fun d => decide (d.data.dealStage ≠ DealStage.closedLost))).map
    (fun d => makeUpdateAction event.groups d none (some DealStage.closedLost))

/-! ## Contact-side data model (contact generator module) -/

/-- The final contact record emitted by generateContacts; the transient
computation-only fields (updated, deployment, license_tier and the like) do
not exist on this shape, mirroring the destructuring that strips them. -/
structure GeneratedContact where
  email : String
  firstname : Option String
  lastname : Option String
  phone : Option String
  city : Option String
  state : Option String
  company_id : Option String
  contact_type : String
  country : String
  region : String
  hosting : String
deriving DecidableEq

/-- TmpContact: a GeneratedContact plus the updated timestamp used only
during merge. -/
structure TmpContact where
  email : String
  firstname : Option String
  lastname : Option String
  phone : Option String
  city : Option String
  state : Option String
  company_id : Option String
  contact_type : String
  country : String
  region : String
  hosting : String
  updated : String
deriving DecidableEq

/-- Drop the updated field, as the final destructuring in
mergeDuplicateContacts does. -/
def stripUpdated (c : TmpContact) : GeneratedContact :=
  { email := c.email, firstname := c.firstname, lastname := c.lastname
    phone := c.phone, city := c.city, state := c.state
    company_id := c.company_id, contact_type := c.contact_type
    country := c.country, region := c.region, hosting := c.hosting }

/-- JavaScript truthiness for an optional string field: present and not the
empty string. -/
def truthy : Option String → Bool
  | none => false
  | some s => !(s == "")

/-- The contact-type upgrade rule of mergeContactProperties: if the ideal is
a Customer and any record of the group is a Partner, promote the ideal to
Partner. -/
def mergeStepContactType (all : List TmpContact) (i : TmpContact) : TmpContact :=
  if i.contact_type == "Customer" && all.any (fun c => c.contact_type == "Partner")
  then { i with contact_type := "Partner" } else i

/-- The name rule of mergeContactProperties: if any record of the sorted
group has both first and last name, take that pair; otherwise take the first
available first name and the first available last name independently. -/
def mergeStepName (all : List TmpContact) (i : TmpContact) : TmpContact :=
  match all.find? (fun c => truthy c.firstname && truthy c.lastname) with
  | some hasName => { i with firstname := hasName.firstname, lastname := hasName.lastname }
  | none =>
    let ia :=
      match all.find? (fun c => truthy c.firstname) with
      | some h => { i with firstname := h.firstname }
      | none => i
    match all.find? (fun c => truthy c.lastname) with
    | some h => { ia with lastname := h.lastname }
    | none => ia

/-- The phone rule of mergeContactProperties: first available non-empty
phone in sorted order. -/
def mergeStepPhone (all : List TmpContact) (i : TmpContact) : TmpContact :=
  match all.find? (fun c => truthy c.phone) with
  | some h => { i with phone := h.phone }
  | none => i

/-- The address rule of mergeContactProperties: if any record has both city
and state, take that pair, otherwise fill city and state independently from
the first records that have them. -/
def mergeStepAddress (all : List TmpContact) (i : TmpContact) : TmpContact :=
  match all.find? (fun c => truthy c.city && truthy c.state) with
  | some h => { i with city := h.city, state := h.state }
  | none =>
    let ib :=
      match all.find? (fun c => truthy c.city) with
      | some h => { i with city := h.city }
      | none => i
    match all.find? (fun c => truthy c.state) with
    | some h => { ib with state := h.state }
    | none => ib

/-- mergeContactProperties from the contact generator: sort the group by
updated descending (stable), take the most recent as the ideal record, rename
it to the primary email, then apply the contact-type, name, phone and address
rules in the order of the source; the list with the updated ideal in first
position is returned (the source mutates the array in place, whose first
element after the in-place sort is the ideal).  All rules scan the sorted
group; no search predicate reads a field written by an earlier rule, so
scanning the pre-update records is equivalent to the in-place mutation of the
source. -/
def mergeContactProperties (primaryEmail : String) (contacts : List TmpContact) :
    List TmpContact :=
  match sortByDsc (fun c => c.updated) contacts with
  | [] => []
  | ideal0 :: rest =>
    let all := ideal0 :: rest
    mergeStepAddress all (mergeStepPhone all (mergeStepName all
      (mergeStepContactType all { ideal0 with email := primaryEmail }))) :: rest

/-- The grouping map of mergeDuplicateContacts: a JavaScript Map from email
to the group array, represented as an association list in insertion order
with unique keys. -/
abbrev ContactMap := List (String × List TmpContact)

def mapGet (m : ContactMap) (k : String) : Option (List TmpContact) :=
  (m.find? (fun e => e.1 == k)).map (fun e => e.2)

def mapHas (m : ContactMap) (k : String) : Bool :=
  (mapGet m k).isSome

def mapDelete (m : ContactMap) (k : String) : ContactMap :=
  m.filter (fun e => !(e.1 == k))

def mapAppendAt (m : ContactMap) (k : String) (cs : List TmpContact) : ContactMap :=
  m.map (fun e => if e.1 == k then (e.1, e.2 ++ cs) else e)

/-- The grouping loop of mergeDuplicateContacts: push each contact onto the
group keyed by its email, creating the group when absent. -/
def mapPush (m : ContactMap) (c : TmpContact) : ContactMap :=
  if mapHas m c.email then mapAppendAt m c.email [c] else m ++ [(c.email, [c])]

def groupByEmail (cs : List TmpContact) : ContactMap :=
  cs.foldl mapPush []

/-- An initial (previously known) contact: its primary email and its recorded
alias emails. -/
structure InitialContact where
  email : String
  otherEmails : List String
deriving DecidableEq

/-- One iteration of the alias loop body when the primary group exists: when
the alias email has a group, delete it from the map and append its contacts
to the primary group; otherwise leave the map unchanged. -/
def foldAliasStep (p : String) (m : ContactMap) (other : String) : ContactMap :=
  match mapGet m other with
  | some otherSet => mapAppendAt (mapDelete m other) p otherSet
  | none => m

/-- Processing of one initial contact in mergeDuplicateContacts: skip it when
it has no alias emails; when the map has a group for its primary email, fold
every alias group into it; otherwise assert that no alias has a group (a
failed assertion, the fatal programming-error path, is none). -/
def foldAliasesOne (m : ContactMap) (ic : InitialContact) : Option ContactMap :=
  if ic.otherEmails.isEmpty then some m
  else if mapHas m ic.email then
    some (ic.otherEmails.foldl (foldAliasStep ic.email) m)
  else if ic.otherEmails.all (fun other => !(mapHas m other)) then some m
  else none

/-- The alias loop over all initial contacts. -/
def foldAliases (m : ContactMap) (ics : List InitialContact) : Option ContactMap :=
  ics.foldlM foldAliasesOne m

/-- The merging loop of mergeDuplicateContacts: every group with more than
one record is collapsed by mergeContactProperties. -/
def mergeGroups (m : ContactMap) : ContactMap :=
  m.map (fun e => if 1 < e.2.length then (e.1, mergeContactProperties e.1 e.2) else e)

/-- mergeDuplicateContacts: group by email, fold alias groups (none on the
failed alias assertion), merge every multi-record group, and emit the first
record of each group with the updated field stripped (none where the source
would crash destructuring an empty group, which never arises). -/
def mergeDuplicateContacts (allContacts : List TmpContact)
    (initialContacts : List InitialContact) : Option (List GeneratedContact) :=
  match foldAliases (groupByEmail allContacts) initialContacts with
  | none => none
  | some m => (mergeGroups m).mapM (fun e => (e.2.head?).map stripUpdated)

/-! ## Contact normalization -/

/-- Split a character list on a separator, JavaScript String.split style:
splitting the empty string yields one empty piece. -/
def splitOnChar (sep : Char) : List Char → List (List Char)
  | [] => [[]]
  | c :: rest =>
    let r := splitOnChar sep rest
    if c = sep then [] :: r
    else
      match r with
      | [] => [[c]]
      | w :: ws => (c :: w) :: ws

/-- Join character-list words with single spaces. -/
def joinWithSpace : List (List Char) → List Char
  | [] => []
  | [w] => w
  | w :: ws => w ++ ' ' :: joinWithSpace ws

/-- Uppercase the first character of a word. -/
def capWord : List Char → List Char
  | [] => []
  | c :: rest => c.toUpper :: rest

/-- Modelled from the spec: the word-capitalization performed by the external
capitalize library — uppercase the first character of each space-separated
word. -/
def capitalizeWords (s : String) : String :=
  String.mk (joinWithSpace ((splitOnChar ' ' s.data).map capWord))

/-- The NAME_URL_RE normalization of mapCommonFields: the global replacement
of the pattern (any char)(dot)(two ASCII letters) by the same with the dot
replaced by an underscore, scanning left to right without overlap as the
JavaScript global regex replace does. -/
def nameUrlFix : List Char → List Char
  | c :: '.' :: a :: b :: rest =>
    if c ≠ '\n' ∧ a.isAlpha ∧ b.isAlpha then
      c :: '_' :: a :: b :: nameUrlFix rest
    else
      c :: nameUrlFix ('.' :: a :: b :: rest)
  | c :: rest => c :: nameUrlFix rest
  | [] => []

/-- Strip leading and trailing whitespace. -/
def trimChars (cs : List Char) : List Char :=
  ((cs.dropWhile Char.isWhitespace).reverse.dropWhile Char.isWhitespace).reverse

/-- Modelled from the spec: nonBlankString (util/helpers, not included under
src/) passes a string through when it has non-blank content and yields null
otherwise, so that optional output fields are either null or non-empty. -/
def nonBlankString : Option String → Option String
  | none => none
  | some s => if trimChars s.data = [] then none else some s

/-- The name split of mapCommonFields: the (possibly missing or empty) name
falls back to a single space, is split on spaces, the first piece is the
first name and the non-empty remaining pieces joined by spaces form the last
name. -/
def namePair (name? : Option String) : String × String :=
  let nm :=
    match name? with
    | some n => if n = "" then " " else n
    | none => " "
  let parts := splitOnChar ' ' nm.data
  (String.mk (parts.headD []),
   String.mk (joinWithSpace ((parts.drop 1).filter (fun w => !w.isEmpty))))

/-- The common person fields produced by mapCommonFields before the
type-specific fields are merged in. -/
structure CommonFields where
  email : String
  firstname : Option String
  lastname : Option String
  phone : Option String
  city : Option String
  state : Option String
  company_id : Option String
  contact_type : String
deriving DecidableEq

/-- mapCommonFields: split the name, apply the NAME_URL_RE normalization to
both parts, word-capitalize them, blank-filter the optional fields, and
classify the contact as Partner exactly when the email domain is in the
partner-domain set. -/
def mapCommonFields (info : ContactInfo) (partnerDomains : List String) : CommonFields :=
  let fn0 := (namePair info.name).1
  let ln0 := (namePair info.name).2
  let firstName := String.mk (nameUrlFix fn0.data)
  let lastName := String.mk (nameUrlFix ln0.data)
  let domain? := (splitOnChar '@' info.email.data)[1]?
  { email := info.email
    firstname := nonBlankString (some (capitalizeWords firstName))
    lastname := nonBlankString (some (capitalizeWords lastName))
    phone := nonBlankString info.phone
    city := nonBlankString
      (match info.city with
       | some c => if c = "" then none else some (capitalizeWords c)
       | none => none)
    state := nonBlankString
      (match info.state with
       | some st => if st = "" then none else some (capitalizeWords st)
       | none => none)
    company_id := none
    contact_type :=
      match domain? with
      | some d => if partnerDomains.contains (String.mk d) then "Partner" else "Customer"
      | none => "Customer" }

/-- The license-specific contact fields. -/
structure TypeSpecificFields where
  country : String
  region : String
  hosting : String
  updated : String
deriving DecidableEq

def mapLicenseSpecificFields (license : License) : TypeSpecificFields :=
  { country := capitalizeWords license.contactDetails.country
    region := license.contactDetails.region
    hosting := license.hosting
    updated := license.lastUpdated }

def mapTransactionSpecificFields (t : Transaction) : TypeSpecificFields :=
  { country := capitalizeWords t.customerDetails.country
    region := t.customerDetails.region
    hosting := t.purchaseDetails.hosting
    updated := t.purchaseDetails.saleDate }

/-- Spread of the common and type-specific fields into a TmpContact, with an
optional contact_type override (used for the partner billing contact). -/
def buildTmpContact (common : CommonFields) (ts : TypeSpecificFields)
    (ctypeOverride : Option String) : TmpContact :=
  { email := common.email, firstname := common.firstname, lastname := common.lastname
    phone := common.phone, city := common.city, state := common.state
    company_id := common.company_id
    contact_type := ctypeOverride.getD common.contact_type
    country := ts.country, region := ts.region, hosting := ts.hosting
    updated := ts.updated }

/-- The three contact slots emitted per license by normalizeContacts:
technical contact, billing contact, partner billing contact (forced to
Partner), each only when its email is truthy. -/
def licenseContacts (partnerDomains : List String) (license : License) : List TmpContact :=
  (if license.contactDetails.technicalContact.email ≠ "" then
    [buildTmpContact (mapCommonFields license.contactDetails.technicalContact partnerDomains)
      (mapLicenseSpecificFields license) none]
   else [])
  ++ (match license.contactDetails.billingContact with
      | some bc =>
        if bc.email ≠ "" then
          [buildTmpContact (mapCommonFields bc partnerDomains)
            (mapLicenseSpecificFields license) none]
        else []
      | none => [])
  ++ (match license.partnerDetails with
      | some pd =>
        if pd.billingContact.email ≠ "" then
          [buildTmpContact (mapCommonFields pd.billingContact partnerDomains)
            (mapLicenseSpecificFields license) (some "Partner")]
        else []
      | none => [])

/-- The three contact slots emitted per transaction by normalizeContacts. -/
def transactionContacts (partnerDomains : List String) (t : Transaction) : List TmpContact :=
  (if t.customerDetails.technicalContact.email ≠ "" then
    [buildTmpContact (mapCommonFields t.customerDetails.technicalContact partnerDomains)
      (mapTransactionSpecificFields t) none]
   else [])
  ++ (match t.customerDetails.billingContact with
      | some bc =>
        if bc.email ≠ "" then
          [buildTmpContact (mapCommonFields bc partnerDomains)
            (mapTransactionSpecificFields t) none]
        else []
      | none => [])
  ++ (match t.partnerDetails with
      | some pd =>
        if pd.billingContact.email ≠ "" then
          [buildTmpContact (mapCommonFields pd.billingContact partnerDomains)
            (mapTransactionSpecificFields t) (some "Partner")]
        else []
      | none => [])

/-- normalizeContacts: all contact records from the licenses followed by all
contact records from the transactions. -/
def normalizeContacts (licenses : List License) (transactions : List Transaction)
    (partnerDomains : List String) : List TmpContact :=
  ((licenses.map (licenseContacts partnerDomains)).flatten)
  ++ ((transactions.map (transactionContacts partnerDomains)).flatten)

/-- Whether an optional output field is null or a non-empty string. -/
def optFieldOk : Option String → Bool
  | none => true
  | some s => decide (0 < s.length)

/-- The final-output invariant asserted by generateContacts: required string
fields non-empty and optional fields null or non-empty (the transient-field
conjuncts of the source assertion hold structurally on GeneratedContact,
which carries no transient field). -/
def contactInvariantOk (c : GeneratedContact) : Bool :=
  decide (0 < c.contact_type.length) && decide (0 < c.country.length)
  && decide (0 < c.region.length) && decide (0 < c.hosting.length)
  && decide (0 < c.email.length)
  && optFieldOk c.firstname && optFieldOk c.lastname && optFieldOk c.phone
  && optFieldOk c.city && optFieldOk c.state

/-- generateContacts: normalize, merge duplicates, and assert the final
output invariant on every produced contact; a failed assertion (the fatal
programming-error path) is none. -/
def generateContacts (licenses : List License) (transactions : List Transaction)
    (initialContacts : List InitialContact) (partnerDomains : List String) :
    Option (List GeneratedContact) :=
  match mergeDuplicateContacts (normalizeContacts licenses transactions partnerDomains)
      initialContacts with
  | none => none
  | some finalContacts =>
    if finalContacts.all contactInvariantOk then some finalContacts else none

/-! ## Observation helpers on actions -/

/-- The existing deal an action refers back to (none for Create). -/
def Action.targetDeal : Action → Option Deal
  | .create _ _ => none
  | .update _ d _ => some d
  | .noop _ d => some d

/-- Whether an action is a Create. -/
def Action.isCreate : Action → Bool
  | .create _ _ => true
  | _ => false

/-! ## Concrete inputs used by witnesses and counterexamples -/

def exDealData (st : DealStage) : DealData :=
  { dealStage := st, addonLicenseId := "L1", transactionId := none, otherEditable := "p" }

/-- A deal with activity, in sync with its snapshot, stage CLOSED_WON. -/
def exDealA1 : Deal :=
  { id := 1, data := exDealData .closedWon, snapshot := exDealData .closedWon,
    hasActivity := true }

/-- A second deal with activity. -/
def exDealA2 : Deal :=
  { id := 2, data := exDealData .closedWon, snapshot := exDealData .closedWon,
    hasActivity := true }

/-- A deal without activity, in EVAL stage. -/
def exDealI3 : Deal :=
  { id := 3, data := exDealData .eval, snapshot := exDealData .eval, hasActivity := false }

/-- A deal already in CLOSED_LOST, in sync with its snapshot. -/
def exDealLost : Deal :=
  { id := 4, data := exDealData .closedLost, snapshot := exDealData .closedLost,
    hasActivity := true }

/-- A deal whose live data diverged from its last-synced snapshot: the
snapshot already records CLOSED_LOST while the pending stage is EVAL. -/
def exPendingDeal : Deal :=
  { id := 7, data := exDealData .eval, snapshot := exDealData .closedLost,
    hasActivity := true }

def exState : GenState :=
  { deals := [exDealA1, exDealA2, exDealI3], duplicatesToDelete := [], warnings := [] }

def exRefundEvent : RefundEvent := { groups := 0, refundedTxs := [] }

def exContactInfo : ContactInfo :=
  { email := "a@x.com", name := some "Jo Smith", phone := none, city := none, state := none }

def exContactDetails : ContactDetails :=
  { technicalContact := exContactInfo, billingContact := none,
    country := "france", region := "EMEA" }

def exTx : Transaction :=
  { transactionId := "T1", addonLicenseId := "L1", customerDetails := exContactDetails,
    partnerDetails := none,
    purchaseDetails := { hosting := "Cloud", saleDate := "2020-05-01" } }

/-- A matched deal already CLOSED_WON whose properties already agree with
both its snapshot and the record payload of exTx. -/
def exMatchedWon : Deal :=
  { id := 9,
    data := { dealStage := .closedWon, addonLicenseId := "L1",
              transactionId := some "T1", otherEditable := "T1" },
    snapshot := { dealStage := .closedWon, addonLicenseId := "L1",
                  transactionId := some "T1", otherEditable := "T1" },
    hasActivity := true }

def exPurchaseEvent : PurchaseEvent :=
  { groups := 0, licenses := [], transaction := some exTx }

def exLicense1 : License :=
  { addonLicenseId := "LA", active := false, maintenanceStartDate := "2019-01-01",
    lastUpdated := "2019-02-01", hosting := "Server",
    contactDetails := exContactDetails, partnerDetails := none }

def exLicense2 : License :=
  { addonLicenseId := "LB", active := true, maintenanceStartDate := "2019-06-01",
    lastUpdated := "2019-07-01", hosting := "Server",
    contactDetails := exContactDetails, partnerDetails := none }

def exEvalEvent : EvalEvent := { groups := 0, licenses := [exLicense1, exLicense2] }

/-- A bare temporary contact used to build concrete merge inputs. -/
def exTmp (e : String) (ct : String) (up : String) : TmpContact :=
  { email := e, firstname := none, lastname := none, phone := none, city := none,
    state := none, company_id := none, contact_type := ct, country := "France",
    region := "EMEA", hosting := "Cloud", updated := up }

def exPartnerA : TmpContact := exTmp "a@x.com" "Partner" "3"

def exCustomerB : TmpContact := { exTmp "b@x.com" "Customer" "5" with firstname := some "Jo" }

def exAliasMap : ContactMap :=
  [("p@x.com", [exTmp "p@x.com" "Customer" "1"]),
   ("q@x.com", [exTmp "q@x.com" "Customer" "2"])]

def exInitial : InitialContact := { email := "p@x.com", otherEmails := ["q@x.com"] }

/-! # Theorems -/

/-- C8: duplicate resolution is idempotent on the kept deal — on a found set
already containing exactly one deal, singleDeal returns that deal, removes
nothing from the live deal manager, and records nothing in
duplicatesToDelete (the whole generator state is unchanged). -/
theorem singleDeal_singleton_id (s : GenState) (d : Deal) :
    singleDeal s [d] = (some d, s) := rfl

/-- C1 counterexample: on a found set of three deals of which the first two
have activity, the second deal is not kept, yet it is not marked for
deletion — it is absent from the toDelete list, it stays in the live deal
collection, and it is not recorded in duplicatesToDelete — refuting the
claim that every non-kept deal, active or not, is marked for deletion. -/
theorem singleDeal_activeDup_not_deleted_cex :
    (singleDeal exState [exDealA1, exDealA2, exDealI3]).1 = some exDealA1
    ∧ exDealA2 ≠ exDealA1
    ∧ exDealA2.id ∉ ((singleDealCore [exDealA1, exDealA2, exDealI3]).2.1.map Deal.id)
    ∧ exDealA2.id ∈
        ((singleDeal exState [exDealA1, exDealA2, exDealI3]).2.deals.map Deal.id)
    ∧ dupHasKey ((singleDeal exState [exDealA1, exDealA2, exDealI3]).2.duplicatesToDelete)
        exDealA2.id = false := by decide

/-- C2 counterexample: a refund event matching a deal whose stage is not
CLOSED_LOST but whose last-synced snapshot already records CLOSED_LOST
produces a Noop, not an Update — refuting the claim that every matched deal
not already at CLOSED_LOST yields exactly one Update action. -/
theorem actionsForRefund_noop_cex :
    exPendingDeal.data.dealStage ≠ DealStage.closedLost
    ∧ actionsForRefund [exPendingDeal] exRefundEvent =
        [Action.noop exRefundEvent.groups
          { exPendingDeal with
            data := { exPendingDeal.data with dealStage := DealStage.closedLost } }] := by
  decide

/-- C3 counterexample: a purchase event whose lookup finds a deal already in
CLOSED_WON (not EVAL) with no pending property changes produces a Noop whose
resulting stage is CLOSED_WON — refuting both that the emitted action updates
the deal and that the resulting stage is CLOSED_WON only if the deal was in
EVAL. -/
theorem actionForPurchase_closedWon_cex :
    exMatchedWon.data.dealStage = DealStage.closedWon
    ∧ exMatchedWon.data.dealStage ≠ DealStage.eval
    ∧ actionForPurchase exState [exMatchedWon] exPurchaseEvent =
        some (Action.noop exPurchaseEvent.groups exMatchedWon, exState) := by decide

/-- C5: every contact produced by generateContacts satisfies the output
invariant — required string fields non-empty, optional fields null or
non-empty — and the transient computation-only fields are absent from the
GeneratedContact shape by construction; when the defensive assertion fails,
generateContacts produces no contacts at all. -/
theorem generateContacts_invariant (licenses : List License)
    (transactions : List Transaction) (initialContacts : List InitialContact)
    (partnerDomains : List String) :
    ((generateContacts licenses transactions initialContacts partnerDomains).getD []).all
      contactInvariantOk = true := by
  unfold generateContacts
  cases mergeDuplicateContacts (normalizeContacts licenses transactions partnerDomains)
      initialContacts with
  | none => rfl
  | some finalContacts =>
    by_cases h : finalContacts.all contactInvariantOk = true
    · simp [h]
    · simp [h]


theorem mergeStepContactType_singleton (c i : TmpContact)
    (h : i.contact_type = c.contact_type) : mergeStepContactType [c] i = i := by
  unfold mergeStepContactType
  by_cases hc : c.contact_type = "Customer"
  · have hany : ([c].any (fun x => x.contact_type == "Partner")) = false := by
      simp [List.any, hc]
    simp [hany]
  · have hne : (i.contact_type == "Customer") = false := by
      simp [h, hc]
    simp [hne]

theorem mergeStepName_singleton (c i : TmpContact)
    (hf : i.firstname = c.firstname) (hl : i.lastname = c.lastname) :
    mergeStepName [c] i = i := by
  unfold mergeStepName
  simp only [List.find?]
  rw [← hf, ← hl]
  cases h1 : truthy i.firstname <;> cases h2 : truthy i.lastname <;>
    simp [h1, h2, ← hf, ← hl]

theorem mergeStepPhone_singleton (c i : TmpContact) (hp : i.phone = c.phone) :
    mergeStepPhone [c] i = i := by
  unfold mergeStepPhone
  simp only [List.find?]
  rw [← hp]
  cases h1 : truthy i.phone <;> simp [h1, ← hp]

theorem mergeStepAddress_singleton (c i : TmpContact)
    (hc : i.city = c.city) (hs : i.state = c.state) :
    mergeStepAddress [c] i = i := by
  unfold mergeStepAddress
  simp only [List.find?]
  rw [← hc, ← hs]
  cases h1 : truthy i.city <;> cases h2 : truthy i.state <;>
    simp [h1, h2, ← hc, ← hs]

/-- C9: mergeContactProperties on a single-element group returns that element
with all of its fields unchanged except that its email is set to the given
primary email. -/
theorem mergeContactProperties_singleton (p : String) (c : TmpContact) :
    mergeContactProperties p [c] = [{ c with email := p }] := by
  unfold mergeContactProperties
  simp only [sortByDsc, insertByDsc]
  rw [mergeStepContactType_singleton c { c with email := p } rfl,
    mergeStepName_singleton c { c with email := p } rfl rfl,
    mergeStepPhone_singleton c { c with email := p } rfl,
    mergeStepAddress_singleton c { c with email := p } rfl rfl]


theorem mergeStepName_ct (all : List TmpContact) (i : TmpContact) :
    (mergeStepName all i).contact_type = i.contact_type := by
  unfold mergeStepName
  cases h1 : all.find? (fun c => truthy c.firstname && truthy c.lastname) with
  | some h => rfl
  | none =>
    cases h2 : all.find? (fun c => truthy c.firstname) <;>
      cases h3 : all.find? (fun c => truthy c.lastname) <;> simp [h2, h3]

theorem mergeStepPhone_ct (all : List TmpContact) (i : TmpContact) :
    (mergeStepPhone all i).contact_type = i.contact_type := by
  unfold mergeStepPhone
  cases h1 : all.find? (fun c => truthy c.phone) <;> simp [h1]

theorem mergeStepAddress_ct (all : List TmpContact) (i : TmpContact) :
    (mergeStepAddress all i).contact_type = i.contact_type := by
  unfold mergeStepAddress
  cases h1 : all.find? (fun c => truthy c.city && truthy c.state) with
  | some h => rfl
  | none =>
    cases h2 : all.find? (fun c => truthy c.city) <;>
      cases h3 : all.find? (fun c => truthy c.state) <;> simp [h2, h3]

/-- C7: contact merging is order-independent on the final field values — for
a two-record group with A (updated 3, Partner) and B (updated 5, Customer),
merging [A, B] and [B, A] yields the same result, based on the newer record B
with the Partner escalation from A applied regardless of input order. -/
theorem mergeContactProperties_orderIndependent (p : String) (A B : TmpContact)
    (hAu : A.updated = "3") (hBu : B.updated = "5")
    (hAt : A.contact_type = "Partner") (hBt : B.contact_type = "Customer") :
    mergeContactProperties p [A, B] = mergeContactProperties p [B, A]
    ∧ (mergeContactProperties p [A, B]).head?.map (fun c => c.contact_type)
        = some "Partner" := by
  have h1 : sortByDsc (fun c => c.updated) [A, B] = [B, A] := by
    simp only [sortByDsc, insertByDsc, hAu, hBu]
    rw [if_neg (by decide)]
  have h2 : sortByDsc (fun c => c.updated) [B, A] = [B, A] := by
    simp only [sortByDsc, insertByDsc, hAu, hBu]
    rw [if_pos (by decide)]
  constructor
  · unfold mergeContactProperties
    rw [h1, h2]
  · unfold mergeContactProperties
    rw [h1]
    simp only [List.head?, Option.map]
    rw [mergeStepAddress_ct, mergeStepPhone_ct, mergeStepName_ct]
    unfold mergeStepContactType
    simp [List.any, hAt, hBt]


theorem mapGet_cons (k1 : String) (v : List TmpContact) (rest : ContactMap) (x : String) :
    mapGet ((k1, v) :: rest) x = if k1 = x then some v else mapGet rest x := by
  simp only [mapGet, List.find?]
  by_cases h : k1 = x
  · subst h; simp
  · rw [beq_eq_false_iff_ne.mpr h, if_neg h]

theorem mapDelete_cons (k1 : String) (v : List TmpContact) (rest : ContactMap) (k : String) :
    mapDelete ((k1, v) :: rest) k =
      if k1 = k then mapDelete rest k else (k1, v) :: mapDelete rest k := by
  by_cases h : k1 = k <;> simp [mapDelete, List.filter_cons, h]

theorem mapAppendAt_cons (k1 : String) (v : List TmpContact) (rest : ContactMap)
    (k : String) (cs : List TmpContact) :
    mapAppendAt ((k1, v) :: rest) k cs =
      (if k1 = k then (k1, v ++ cs) else (k1, v)) :: mapAppendAt rest k cs := by
  by_cases h : k1 = k <;> simp [mapAppendAt, h]

theorem mapGet_mapDelete_self (m : ContactMap) (k : String) :
    mapGet (mapDelete m k) k = none := by
  induction m with
  | nil => rfl
  | cons e rest ih =>
    obtain ⟨k1, v⟩ := e
    by_cases he : k1 = k <;>
      simp [mapDelete_cons, mapGet_cons, he, ih]

theorem mapGet_mapDelete_ne (m : ContactMap) (k x : String) (h : x ≠ k) :
    mapGet (mapDelete m k) x = mapGet m x := by
  induction m with
  | nil => rfl
  | cons e rest ih =>
    obtain ⟨k1, v⟩ := e
    by_cases he : k1 = k
    · subst he
      have hx : ¬ (k1 = x) := fun hh => h hh.symm
      simp [mapDelete_cons, mapGet_cons, hx, ih]
    · by_cases hx : k1 = x <;>
        simp [mapDelete_cons, mapGet_cons, he, hx, h, ih]

theorem mapGet_mapAppendAt_self (m : ContactMap) (k : String) (cs : List TmpContact) :
    mapGet (mapAppendAt m k cs) k = (mapGet m k).map (fun v => v ++ cs) := by
  induction m with
  | nil => rfl
  | cons e rest ih =>
    obtain ⟨k1, v⟩ := e
    by_cases he : k1 = k <;>
      simp [mapAppendAt_cons, mapGet_cons, he, ih]

theorem mapGet_mapAppendAt_ne (m : ContactMap) (k x : String) (cs : List TmpContact)
    (h : x ≠ k) : mapGet (mapAppendAt m k cs) x = mapGet m x := by
  induction m with
  | nil => rfl
  | cons e rest ih =>
    obtain ⟨k1, v⟩ := e
    by_cases he : k1 = k
    · subst he
      have hx : ¬ (k1 = x) := fun hh => h hh.symm
      simp [mapAppendAt_cons, mapGet_cons, hx, ih]
    · by_cases hx : k1 = x <;>
        simp [mapAppendAt_cons, mapGet_cons, he, hx, h, ih]


theorem mapHas_foldAliasStep_false (p other x : String) (m : ContactMap)
    (h : mapHas m x = false) : mapHas (foldAliasStep p m other) x = false := by
  have hn : mapGet m x = none := by
    cases hmg : mapGet m x with
    | none => rfl
    | some v => rw [mapHas, hmg] at h; simp at h
  cases hget : mapGet m other with
  | none => simpa [foldAliasStep, hget] using h
  | some os =>
    have hstep : foldAliasStep p m other = mapAppendAt (mapDelete m other) p os := by
      rw [foldAliasStep, hget]
    rw [hstep]
    by_cases hx : x = p
    · subst hx
      by_cases hop : x = other
      · subst hop
        rw [mapHas, mapGet_mapAppendAt_self, mapGet_mapDelete_self]
        rfl
      · rw [mapHas, mapGet_mapAppendAt_self, mapGet_mapDelete_ne _ _ _ hop, hn]
        rfl
    · rw [mapHas, mapGet_mapAppendAt_ne _ _ _ _ hx]
      by_cases hop : x = other
      · subst hop
        rw [mapGet_mapDelete_self]
        rfl
      · rw [mapGet_mapDelete_ne _ _ _ hop, hn]
        rfl

theorem mapHas_foldl_false (p x : String) (others : List String) (m : ContactMap)
    (h : mapHas m x = false) :
    mapHas (others.foldl (foldAliasStep p) m) x = false := by
  induction others generalizing m with
  | nil => exact h
  | cons e rest ih => exact ih _ (mapHas_foldAliasStep_false p e x m h)

theorem foldAliasSteps_spec (p : String) (others : List String) : ∀ m : ContactMap,
    mapHas m p = true → p ∉ others → others.Nodup →
    (∀ e ∈ others, mapHas (others.foldl (foldAliasStep p) m) e = false)
    ∧ mapGet (others.foldl (foldAliasStep p) m) p =
        (mapGet m p).map
          (fun v => v ++ (others.map (fun e => (mapGet m e).getD [])).flatten) := by
  induction others with
  | nil =>
    intro m _ _ _
    refine ⟨fun e he => absurd he (List.not_mem_nil e), ?_⟩
    cases hmg : mapGet m p <;> simp [hmg]
  | cons e rest ih =>
    intro m hp hnmem hnd
    have hpe : p ≠ e := fun hh => hnmem (hh ▸ List.mem_cons_self e rest)
    have hprest : p ∉ rest := fun hh => hnmem (List.mem_cons_of_mem e hh)
    have hm1p : mapGet (foldAliasStep p m e) p =
        (mapGet m p).map (fun v => v ++ (mapGet m e).getD []) := by
      cases hget : mapGet m e with
      | none =>
        simp only [foldAliasStep, hget]
        cases mapGet m p <;> simp
      | some os =>
        have hstep : foldAliasStep p m e = mapAppendAt (mapDelete m e) p os := by
          rw [foldAliasStep, hget]
        rw [hstep, mapGet_mapAppendAt_self, mapGet_mapDelete_ne _ _ _ hpe]
        simp [hget]
    have hm1has : mapHas (foldAliasStep p m e) p = true := by
      obtain ⟨v, hv⟩ := Option.isSome_iff_exists.mp hp
      rw [mapHas, hm1p, hv]
      rfl
    have hm1rest : ∀ x ∈ rest, mapGet (foldAliasStep p m e) x = mapGet m x := by
      intro x hx
      have hxe : x ≠ e := by
        intro hh
        subst hh
        exact (List.nodup_cons.mp hnd).1 hx
      have hxp : x ≠ p := by
        intro hh
        subst hh
        exact hprest hx
      cases hget : mapGet m e with
      | none => simp only [foldAliasStep, hget]
      | some os =>
        have hstep : foldAliasStep p m e = mapAppendAt (mapDelete m e) p os := by
          rw [foldAliasStep, hget]
        rw [hstep, mapGet_mapAppendAt_ne _ _ _ _ hxp, mapGet_mapDelete_ne _ _ _ hxe]
    have hm1e : mapHas (foldAliasStep p m e) e = false := by
      cases hget : mapGet m e with
      | none => simp only [foldAliasStep, hget, mapHas, Option.isSome_none]
      | some os =>
        have hstep : foldAliasStep p m e = mapAppendAt (mapDelete m e) p os := by
          rw [foldAliasStep, hget]
        rw [hstep, mapHas, mapGet_mapAppendAt_ne _ _ _ _ (Ne.symm hpe),
          mapGet_mapDelete_self]
        rfl
    obtain ⟨ihA, ihB⟩ := ih (foldAliasStep p m e) hm1has hprest (List.nodup_cons.mp hnd).2
    constructor
    · intro x hx
      rcases List.mem_cons.mp hx with hxe | hxr
      · subst hxe
        exact mapHas_foldl_false p x rest _ hm1e
      · exact ihA x hxr
    · rw [List.foldl_cons, ihB]
      have hmapeq : rest.map (fun x => (mapGet (foldAliasStep p m e) x).getD []) =
          rest.map (fun x => (mapGet m x).getD []) :=
        List.map_congr_left (fun x hx => by rw [hm1rest x hx])
      simp only [hmapeq, hm1p]
      obtain ⟨v, hv⟩ := Option.isSome_iff_exists.mp hp
      rw [hv]
      simp [List.append_assoc]

/-- C6: during contact merging, for every initial contact with alias emails:
when a group keyed by its primary email exists, all groups keyed by its alias
emails are folded into the primary group (their contacts appended to it) and
removed from the map; when no primary group exists, the processing succeeds
unchanged exactly when no alias has a group, and an alias group existing
without a primary group triggers the fatal assertion (the none result). -/
theorem foldAliasesOne_spec (m : ContactMap) (ic : InitialContact)
    (hne : ic.otherEmails ≠ []) (hself : ic.email ∉ ic.otherEmails)
    (hdup : ic.otherEmails.Nodup) :
    (mapHas m ic.email = true →
      foldAliasesOne m ic = some (ic.otherEmails.foldl (foldAliasStep ic.email) m)
      ∧ ic.otherEmails.all
          (fun e => !(mapHas (ic.otherEmails.foldl (foldAliasStep ic.email) m) e)) = true
      ∧ mapGet (ic.otherEmails.foldl (foldAliasStep ic.email) m) ic.email
          = (mapGet m ic.email).map
              (fun v => v ++ (ic.otherEmails.map (fun e => (mapGet m e).getD [])).flatten))
    ∧ (mapHas m ic.email = false →
        foldAliasesOne m ic =
          (if ic.otherEmails.all (fun e => !(mapHas m e)) then some m else none)) := by
  have hemp : ic.otherEmails.isEmpty = false := by
    cases hoe : ic.otherEmails with
    | nil => exact absurd hoe hne
    | cons a l => rfl
  constructor
  · intro hp
    refine ⟨?_, ?_, ?_⟩
    · simp [foldAliasesOne, hemp, hp]
    · rw [List.all_eq_true]
      intro e he
      simp [(foldAliasSteps_spec ic.email ic.otherEmails m hp hself hdup).1 e he]
    · exact (foldAliasSteps_spec ic.email ic.otherEmails m hp hself hdup).2
  · intro hp
    simp only [foldAliasesOne, hemp, hp]
    simp


theorem dupHasKey_cons (e : Deal × List Deal) (rest : List (Deal × List Deal)) (i : Nat) :
    dupHasKey (e :: rest) i = ((e.1.id == i) || dupHasKey rest i) := rfl

theorem dupHasKey_addDupOf (m : List (Deal × List Deal)) (t kept : Deal) (i : Nat) :
    dupHasKey (addDupOf m t kept) i = (dupHasKey m i || (t.id == i)) := by
  induction m with
  | nil => simp [addDupOf, dupHasKey, List.any]
  | cons e rest ih =>
    cases het : (e.1.id == t.id)
    · have hstep : addDupOf (e :: rest) t kept = e :: addDupOf rest t kept := by
        simp [addDupOf, het]
      rw [hstep, dupHasKey_cons, dupHasKey_cons, ih, Bool.or_assoc]
    · have heq : e.1.id = t.id := by simpa using het
      have hstep : addDupOf (e :: rest) t kept =
          (e.1, if e.2.any (fun k => k.id == kept.id) then e.2 else e.2 ++ [kept]) :: rest := by
        simp [addDupOf, het]
      rw [hstep, dupHasKey_cons, dupHasKey_cons, ← heq]
      cases hb : (e.1.id == i) <;> cases hX : dupHasKey rest i <;> simp [hb, hX]

theorem dupHasKey_recordDuplicates (m : List (Deal × List Deal)) (del : List Deal)
    (kept : Deal) (i : Nat) :
    dupHasKey (recordDuplicates m del kept) i =
      (dupHasKey m i || del.any (fun t => t.id == i)) := by
  induction del generalizing m with
  | nil => simp [recordDuplicates]
  | cons t rest ih =>
    have hstep : recordDuplicates m (t :: rest) kept =
        recordDuplicates (addDupOf m t kept) rest kept := rfl
    rw [hstep, ih, dupHasKey_addDupOf, List.any_cons, Bool.or_assoc]

theorem mem_removeLocally_iff (live del : List Deal) (i : Nat)
    (h : ∀ t ∈ del, t.id ≠ i) :
    (i ∈ (removeLocally live del).map Deal.id ↔ i ∈ live.map Deal.id) := by
  induction live with
  | nil => simp [removeLocally]
  | cons d rest ih =>
    cases hd : del.any (fun t => t.id == d.id)
    · have h1 : removeLocally (d :: rest) del = d :: removeLocally rest del := by
        simp [removeLocally, List.filter_cons, hd]
      rw [h1]
      simp only [List.map_cons, List.mem_cons]
      rw [ih]
    · have h1 : removeLocally (d :: rest) del = removeLocally rest del := by
        simp [removeLocally, List.filter_cons, hd]
      have hdne : d.id ≠ i := by
        obtain ⟨t, ht, hti⟩ := List.any_eq_true.mp hd
        have hti2 : t.id = d.id := by simpa using hti
        exact hti2 ▸ h t ht
      rw [h1]
      simp only [List.map_cons, List.mem_cons]
      rw [ih]
      constructor
      · exact Or.inr
      · rintro (hh | hh)
        · exact absurd hh.symm hdne
        · exact hh


theorem singleDeal_eq (s : GenState) (found : List Deal) :
    singleDeal s found =
      match singleDealCore found with
      | (some kept, toDelete, warns) =>
        (some kept,
          { deals := removeLocally s.deals toDelete
            duplicatesToDelete := recordDuplicates s.duplicatesToDelete toDelete kept
            warnings := s.warnings ++ warns })
      | (none, _, _) => (none, s) := by
  cases found with
  | nil => rfl
  | cons d0 tail =>
    cases tail with
    | nil =>
      show (some d0, s) = _
      simp [singleDealCore, removeLocally, recordDuplicates, List.any]
    | cons d1 rest => rfl

theorem kept_not_in_toDelete (found : List Deal) (imp0 : Deal) (impRest : List Deal) :
    ∀ t ∈ found.filter
        (fun d => !((imp0 :: impRest).any (fun i => i.id == d.id))), t.id ≠ imp0.id := by
  intro t ht hti
  have hmem := (List.mem_filter.mp ht).2
  have hany : ((imp0 :: impRest).any (fun i => i.id == t.id)) = false := by
    simpa using hmem
  rw [List.any_cons] at hany
  have h0 := (Bool.or_eq_false_iff.mp hany).1
  rw [hti] at h0
  simp at h0

theorem singleDealCore_facts (found : List Deal) (kept : Deal) (toDelete : List Deal)
    (warns : List (List Deal)) (hn : (found.map Deal.id).Nodup)
    (hc : singleDealCore found = (some kept, toDelete, warns)) :
    (∀ t ∈ toDelete, t.id ≠ kept.id)
    ∧ (match found.filter (fun d => d.hasActivity) with
       | [] => found.head? = some kept
       | a :: _ => a = kept) := by
  cases found with
  | nil => simp [singleDealCore] at hc
  | cons d0 tail =>
    cases tail with
    | nil =>
      simp only [singleDealCore, Prod.mk.injEq, Option.some_inj] at hc
      obtain ⟨hk, hdel, hw⟩ := hc
      subst hk
      subst hdel
      refine ⟨fun t ht => absurd ht (List.not_mem_nil t), ?_⟩
      cases hact : d0.hasActivity <;> simp [List.filter_cons, hact]
    | cons d1 rest =>
      cases hfil : (d0 :: d1 :: rest).filter (fun d => d.hasActivity) with
      | nil =>
        have hcore : singleDealCore (d0 :: d1 :: rest) = (some d0, d1 :: rest, []) := by
          simp [singleDealCore, hfil]
        rw [hcore] at hc
        simp only [Prod.mk.injEq, Option.some_inj] at hc
        obtain ⟨hk, hdel, hw⟩ := hc
        subst hk
        subst hdel
        constructor
        · rw [List.map_cons] at hn
          have hnotin := (List.nodup_cons.mp hn).1
          intro t ht hti
          exact hnotin (hti ▸ List.mem_map_of_mem Deal.id ht)
        · rfl
      | cons imp0 impRest =>
        have hcore : singleDealCore (d0 :: d1 :: rest) =
            (some imp0,
             (d0 :: d1 :: rest).filter
               (fun d => !((imp0 :: impRest).any (fun i => i.id == d.id))),
             if impRest.isEmpty then [] else [imp0 :: impRest]) := by
          simp [singleDealCore, hfil]
        rw [hcore] at hc
        simp only [Prod.mk.injEq, Option.some_inj] at hc
        obtain ⟨hk, hdel, hw⟩ := hc
        subst hk
        subst hdel
        refine ⟨kept_not_in_toDelete _ _ _, ?_⟩
        rfl


/-- C10: whenever singleDeal returns a deal, the kept deal is never among the
deals marked for deletion, stays in the live deal collection, is not added as
a key of duplicatesToDelete, and is the first found deal when no found deal
has activity and the first activity-having deal otherwise. -/
theorem singleDeal_kept_preserved (s : GenState) (found : List Deal) (deal : Deal)
    (s2 : GenState) (hn : (found.map Deal.id).Nodup)
    (h : singleDeal s found = (some deal, s2)) :
    deal.id ∉ ((singleDealCore found).2.1.map Deal.id)
    ∧ (deal.id ∈ s.deals.map Deal.id → deal.id ∈ s2.deals.map Deal.id)
    ∧ dupHasKey s2.duplicatesToDelete deal.id = dupHasKey s.duplicatesToDelete deal.id
    ∧ (match found.filter (fun d => d.hasActivity) with
       | [] => found.head? = some deal
       | a :: _ => a = deal) := by
  rw [singleDeal_eq] at h
  rcases hcore : singleDealCore found with ⟨dealToUse, toDelete, warns⟩
  rw [hcore] at h
  cases dealToUse with
  | none => simp at h
  | some kept =>
    simp only [Prod.mk.injEq, Option.some_inj] at h
    obtain ⟨hk, hs⟩ := h
    subst hk
    subst hs
    obtain ⟨hdel, hmatch⟩ := singleDealCore_facts found kept toDelete warns hn hcore
    refine ⟨?_, ?_, ?_, hmatch⟩
    · intro hmem
      obtain ⟨t, ht, hti⟩ := List.mem_map.mp hmem
      exact hdel t ht hti
    · intro hh
      exact (mem_removeLocally_iff s.deals toDelete kept.id hdel).mpr hh
    · show dupHasKey (recordDuplicates s.duplicatesToDelete toDelete kept) kept.id = _
      rw [dupHasKey_recordDuplicates]
      have hany : toDelete.any (fun t => t.id == kept.id) = false := by
        rw [List.any_eq_false]
        intro t ht
        simp [hdel t ht]
      rw [hany, Bool.or_false]

theorem toDelete_eq_inactive (found : List Deal) (imps : List Deal)
    (hn : (found.map Deal.id).Nodup)
    (hfil : found.filter (fun d => d.hasActivity) = imps) :
    found.filter (fun d => !(imps.any (fun i => i.id == d.id)))
      = found.filter (fun d => !d.hasActivity) := by
  apply List.filter_congr
  intro x hx
  have hkey : imps.any (fun i => i.id == x.id) = x.hasActivity := by
    cases hact : x.hasActivity
    · apply List.any_eq_false.mpr
      intro i hi
      subst hfil
      have hifound := List.mem_of_mem_filter hi
      have hiact := (List.mem_filter.mp hi).2
      intro hbe
      have hid : i.id = x.id := by simpa using hbe
      have hix : i = x := List.inj_on_of_nodup_map hn hifound hx hid
      rw [hix] at hiact
      rw [hiact] at hact
      exact Bool.noConfusion hact
    · apply List.any_eq_true.mpr
      refine ⟨x, ?_, by simp⟩
      rw [← hfil]
      exact List.mem_filter.mpr ⟨hx, hact⟩
  rw [hkey]

/-- C1 amended: with at least two activity-having deals among the found
deals, singleDeal keeps the first activity-having deal, reports the whole
activity-having subset in the unresolved warning (so the remaining active
duplicates are reported), and marks exactly the deals without activity for
deletion — removing them from the live collection and recording them in
duplicatesToDelete; the non-kept activity-having duplicates are not marked
for deletion. -/
theorem singleDeal_multiActive (s : GenState) (found : List Deal) (kept : Deal)
    (hn : (found.map Deal.id).Nodup)
    (h2 : 2 ≤ (found.filter (fun d => d.hasActivity)).length)
    (hkept : (found.filter (fun d => d.hasActivity)).head? = some kept) :
    singleDealCore found =
      (some kept, found.filter (fun d => !d.hasActivity),
        [found.filter (fun d => d.hasActivity)])
    ∧ singleDeal s found =
      (some kept,
        { deals := removeLocally s.deals (found.filter (fun d => !d.hasActivity))
          duplicatesToDelete := recordDuplicates s.duplicatesToDelete
            (found.filter (fun d => !d.hasActivity)) kept
          warnings := s.warnings ++ [found.filter (fun d => d.hasActivity)] }) := by
  rcases hfil : found.filter (fun d => d.hasActivity) with _ | ⟨imp0, impRest⟩
  · rw [hfil] at h2
    simp at h2
  · rw [hfil] at hkept
    have hkeq : imp0 = kept := by simpa using hkept
    subst hkeq
    have hlen : 2 ≤ impRest.length + 1 := by
      rw [hfil] at h2
      simpa using h2
  -- continued below
    have hres : impRest ≠ [] := by
      intro hh
      rw [hh] at hlen
      simp at hlen
    have hemp : impRest.isEmpty = false := by
      cases himp : impRest with
      | nil => exact absurd himp hres
      | cons a l => rfl
    cases found with
    | nil => simp at hfil
    | cons d0 tail =>
      cases tail with
      | nil =>
        have hle : (List.filter (fun d => d.hasActivity) [d0]).length ≤ 1 := by
          cases hact : d0.hasActivity <;> simp [List.filter_cons, hact]
        rw [hfil, List.length_cons] at hle
        omega
      | cons d1 rest =>
        have hcore : singleDealCore (d0 :: d1 :: rest) =
            (some imp0,
             (d0 :: d1 :: rest).filter
               (fun d => !((imp0 :: impRest).any (fun i => i.id == d.id))),
             [imp0 :: impRest]) := by
          simp [singleDealCore, hfil, hemp]
        have htd := toDelete_eq_inactive (d0 :: d1 :: rest) (imp0 :: impRest) hn hfil
        constructor
        · rw [hcore, htd, hfil]
        · rw [singleDeal_eq, hcore, htd, hfil]


theorem charListLt_irrefl (cs : List Char) : charListLt cs cs = false := by
  induction cs with
  | nil => rfl
  | cons c rest ih => simp [charListLt, Nat.lt_irrefl, ih]

theorem strLeB_refl (a : String) : strLeB a a = true := by
  unfold strLeB
  rw [charListLt_irrefl]
  rfl

theorem getLast?_eq_some_mem {α : Type} (l : List α) (x : α)
    (h : l.getLast? = some x) : x ∈ l := by
  induction l with
  | nil => simp at h
  | cons a rest ih =>
    cases hrest : rest with
    | nil =>
      subst hrest
      simp [List.getLast?] at h
      simp [h]
    | cons b rest2 =>
      subst hrest
      rw [List.getLast?_cons_cons] at h
      exact List.mem_cons_of_mem a (ih h)

theorem getLast_maximal (l : List License) (latest : License)
    (hlat : l.getLast? = some latest)
    (hchron : l.Pairwise (fun a b => strLeB a.lastUpdated b.lastUpdated = true)) :
    l.all (fun x => strLeB x.lastUpdated latest.lastUpdated) = true := by
  induction l with
  | nil => simp at hlat
  | cons a rest ih =>
    cases hrest : rest with
    | nil =>
      subst hrest
      simp [List.getLast?] at hlat
      subst hlat
      simp [strLeB_refl]
    | cons b rest2 =>
      subst hrest
      rw [List.getLast?_cons_cons] at hlat
      obtain ⟨hhead, htail⟩ := List.pairwise_cons.mp hchron
      have hall := ih hlat htail
      rw [List.all_cons, hall, Bool.and_true]
      exact hhead latest (getLast?_eq_some_mem _ _ hlat)

/-- C4: on an eval event whose deal lookup finds no matching deal, the output
is exactly one Create action whose stage is EVAL exactly when some license of
the group is active and CLOSED_LOST otherwise, whose addon-license id comes
from the last license of the group — which under the chronological ordering
of the event is a most recent one — and whose transaction id is null; the
generator state is untouched. -/
theorem actionForEval_noMatch_create (s : GenState) (event : EvalEvent) (latest : License)
    (hlat : event.licenses.getLast? = some latest)
    (hchron : event.licenses.Pairwise
      (fun a b => strLeB a.lastUpdated b.lastUpdated = true)) :
    event.licenses.all (fun l => strLeB l.lastUpdated latest.lastUpdated) = true
    ∧ actionForEval s [] event = some
        (Action.create event.groups
          { dealStage :=
              if event.licenses.any (fun l => l.active) then DealStage.eval
              else DealStage.closedLost
            addonLicenseId := latest.addonLicenseId
            transactionId := none
            otherEditable := recordPayload (MpacRecord.license latest) }, s) := by
  refine ⟨getLast_maximal _ _ hlat hchron, ?_⟩
  simp [actionForEval, singleDeal, hlat, dealCreationProperties]

theorem makeUpdateAction_target (g : RelatedLicenseSet) (deal : Deal)
    (record : Option MpacRecord) (st : DealStage) :
    (makeUpdateAction g deal record (some st)).isCreate = false
    ∧ (makeUpdateAction g deal record (some st)).targetDeal.map Deal.id = some deal.id
    ∧ (makeUpdateAction g deal record (some st)).targetDeal.map
        (fun d2 => d2.data.dealStage) = some st := by
  cases record with
  | none =>
    simp only [makeUpdateAction]
    split <;> simp [Action.isCreate, Action.targetDeal]
  | some r =>
    simp only [makeUpdateAction, updateDeal]
    split <;> simp [Action.isCreate, Action.targetDeal]

/-- C3 amended: on a purchase event whose deal lookup finds a matching deal,
the emitted action targets that deal — an Update when properties changed and
otherwise a Noop, never a Create — and the resulting stage is CLOSED_WON if
the matched deal was in EVAL before the event and is left unchanged
otherwise. -/
theorem actionForPurchase_match_stage (s : GenState) (found : List Deal)
    (event : PurchaseEvent) (deal : Deal)
    (h : (singleDeal s found).1 = some deal) :
    (actionForPurchase s found event).map (fun r => r.2) = some (singleDeal s found).2
    ∧ (actionForPurchase s found event).map (fun r => r.1.isCreate) = some false
    ∧ ((actionForPurchase s found event).bind (fun r => r.1.targetDeal)).map Deal.id
        = some deal.id
    ∧ ((actionForPurchase s found event).bind (fun r => r.1.targetDeal)).map
          (fun d2 => d2.data.dealStage)
        = some (if deal.data.dealStage = DealStage.eval then DealStage.closedWon
                else deal.data.dealStage) := by
  rcases hsd : singleDeal s found with ⟨d1, s2⟩
  rw [hsd] at h
  simp only at h
  subst h
  have hstage : (if deal.isEval = true then DealStage.closedWon else deal.data.dealStage)
      = (if deal.data.dealStage = DealStage.eval then DealStage.closedWon
         else deal.data.dealStage) := by
    by_cases he : deal.data.dealStage = DealStage.eval <;> simp [Deal.isEval, he]
  obtain ⟨ht1, ht2, ht3⟩ := makeUpdateAction_target event.groups deal
    (match event.transaction with
     | some t => some (MpacRecord.transaction t)
     | none => (getLatestLicense event).map MpacRecord.license)
    (if deal.isEval then DealStage.closedWon else deal.data.dealStage)
  refine ⟨?_, ?_, ?_, ?_⟩ <;>
    simp only [actionForPurchase, hsd]
  · rfl
  · simpa using ht1
  · simpa using ht2
  · rw [← hstage]
    simpa using ht3


/-- C2 amended: on a refund event, every matched deal already at CLOSED_LOST
yields no action, and every other matched deal with no pending property
changes (its data equal to its last-synced snapshot) yields exactly one
Update action setting its stage to CLOSED_LOST with no other property
updates; when the stage change makes the data coincide with the snapshot a
Noop is produced instead (see the counterexample). -/
theorem actionsForRefund_spec (event : RefundEvent) (found : List Deal)
    (hsync : ∀ d ∈ found, d.data = d.snapshot) :
    actionsForRefund found event =
      (found.filter (fun d => decide (d.data.dealStage ≠ DealStage.closedLost))).map
        (fun d => Action.update event.groups
          { d with data := { d.data with dealStage := DealStage.closedLost } }
          { dealStage := some DealStage.closedLost, addonLicenseId := none,
            transactionId := none, otherEditable := none }) := by
  unfold actionsForRefund
  apply List.map_congr_left
  intro d hd
  have hmem := List.mem_of_mem_filter hd
  have hne : d.data.dealStage ≠ DealStage.closedLost := by
    have hf := (List.mem_filter.mp hd).2
    simpa using hf
  have hs := hsync d hmem
  simp only [makeUpdateAction]
  have hcond :
      ¬ (({ d with data := { d.data with dealStage := DealStage.closedLost } } : Deal).data
        = ({ d with
              data := { d.data with dealStage := DealStage.closedLost } } : Deal).snapshot) := by
    simp only
    rw [← hs]
    intro hh
    exact hne (congrArg DealData.dealStage hh).symm
  rw [if_neg hcond]
  congr 1
  simp only [getPropertyChanges]
  rw [← hs]
  have hne2 : ¬ (DealStage.closedLost = d.data.dealStage) := fun hh => hne hh.symm
  rw [if_neg hne2, if_pos rfl, if_pos rfl, if_pos rfl]

theorem actionsForRefund_spec_witness :
    actionsForRefund [exDealA1, exDealLost] exRefundEvent =
      ([exDealA1, exDealLost].filter
          (fun d => decide (d.data.dealStage ≠ DealStage.closedLost))).map
        (fun d => Action.update exRefundEvent.groups
          { d with data := { d.data with dealStage := DealStage.closedLost } }
          { dealStage := some DealStage.closedLost, addonLicenseId := none,
            transactionId := none, otherEditable := none }) :=
  actionsForRefund_spec exRefundEvent [exDealA1, exDealLost] (by decide)

theorem singleDeal_multiActive_witness :
    singleDealCore [exDealA1, exDealA2, exDealI3] =
      (some exDealA1,
        [exDealA1, exDealA2, exDealI3].filter (fun d => !d.hasActivity),
        [[exDealA1, exDealA2, exDealI3].filter (fun d => d.hasActivity)])
    ∧ singleDeal exState [exDealA1, exDealA2, exDealI3] =
      (some exDealA1,
        { deals := removeLocally exState.deals
            ([exDealA1, exDealA2, exDealI3].filter (fun d => !d.hasActivity))
          duplicatesToDelete := recordDuplicates exState.duplicatesToDelete
            ([exDealA1, exDealA2, exDealI3].filter (fun d => !d.hasActivity)) exDealA1
          warnings := exState.warnings ++
            [[exDealA1, exDealA2, exDealI3].filter (fun d => d.hasActivity)] }) :=
  singleDeal_multiActive exState [exDealA1, exDealA2, exDealI3] exDealA1
    (by decide) (by decide) (by decide)

theorem singleDeal_kept_preserved_witness :
    exDealA1.id ∉ ((singleDealCore [exDealA1, exDealA2, exDealI3]).2.1.map Deal.id)
    ∧ (exDealA1.id ∈ exState.deals.map Deal.id →
        exDealA1.id ∈
          (⟨[exDealA1, exDealA2], [(exDealI3, [exDealA1])],
            [[exDealA1, exDealA2]]⟩ : GenState).deals.map Deal.id)
    ∧ dupHasKey
        (⟨[exDealA1, exDealA2], [(exDealI3, [exDealA1])],
          [[exDealA1, exDealA2]]⟩ : GenState).duplicatesToDelete exDealA1.id
        = dupHasKey exState.duplicatesToDelete exDealA1.id
    ∧ (match [exDealA1, exDealA2, exDealI3].filter (fun d => d.hasActivity) with
       | [] => [exDealA1, exDealA2, exDealI3].head? = some exDealA1
       | a :: _ => a = exDealA1) :=
  singleDeal_kept_preserved exState [exDealA1, exDealA2, exDealI3] exDealA1
    ⟨[exDealA1, exDealA2], [(exDealI3, [exDealA1])], [[exDealA1, exDealA2]]⟩
    (by decide) (by decide)

theorem actionForPurchase_match_stage_witness :
    (actionForPurchase exState [exMatchedWon] exPurchaseEvent).map (fun r => r.2)
        = some (singleDeal exState [exMatchedWon]).2
    ∧ (actionForPurchase exState [exMatchedWon] exPurchaseEvent).map
        (fun r => r.1.isCreate) = some false
    ∧ ((actionForPurchase exState [exMatchedWon] exPurchaseEvent).bind
        (fun r => r.1.targetDeal)).map Deal.id = some exMatchedWon.id
    ∧ ((actionForPurchase exState [exMatchedWon] exPurchaseEvent).bind
          (fun r => r.1.targetDeal)).map (fun d2 => d2.data.dealStage)
        = some (if exMatchedWon.data.dealStage = DealStage.eval then DealStage.closedWon
                else exMatchedWon.data.dealStage) :=
  actionForPurchase_match_stage exState [exMatchedWon] exPurchaseEvent exMatchedWon
    (by decide)

theorem actionForEval_noMatch_create_witness :
    exEvalEvent.licenses.all
        (fun l => strLeB l.lastUpdated exLicense2.lastUpdated) = true
    ∧ actionForEval exState [] exEvalEvent = some
        (Action.create exEvalEvent.groups
          { dealStage :=
              if exEvalEvent.licenses.any (fun l => l.active) then DealStage.eval
              else DealStage.closedLost
            addonLicenseId := exLicense2.addonLicenseId
            transactionId := none
            otherEditable := recordPayload (MpacRecord.license exLicense2) }, exState) :=
  actionForEval_noMatch_create exState exEvalEvent exLicense2 (by decide) (by decide)

theorem foldAliasesOne_spec_witness :
    (mapHas exAliasMap exInitial.email = true →
      foldAliasesOne exAliasMap exInitial =
        some (exInitial.otherEmails.foldl (foldAliasStep exInitial.email) exAliasMap)
      ∧ exInitial.otherEmails.all
          (fun e => !(mapHas
            (exInitial.otherEmails.foldl (foldAliasStep exInitial.email) exAliasMap)
            e)) = true
      ∧ mapGet (exInitial.otherEmails.foldl (foldAliasStep exInitial.email) exAliasMap)
          exInitial.email
          = (mapGet exAliasMap exInitial.email).map
              (fun v => v ++
                (exInitial.otherEmails.map
                  (fun e => (mapGet exAliasMap e).getD [])).flatten))
    ∧ (mapHas exAliasMap exInitial.email = false →
        foldAliasesOne exAliasMap exInitial =
          (if exInitial.otherEmails.all (fun e => !(mapHas exAliasMap e))
           then some exAliasMap else none)) :=
  foldAliasesOne_spec exAliasMap exInitial (by decide) (by decide) (by decide)

theorem mergeContactProperties_orderIndependent_witness :
    mergeContactProperties "a@x.com" [exPartnerA, exCustomerB]
      = mergeContactProperties "a@x.com" [exCustomerB, exPartnerA]
    ∧ (mergeContactProperties "a@x.com" [exPartnerA, exCustomerB]).head?.map
        (fun c => c.contact_type) = some "Partner" :=
  mergeContactProperties_orderIndependent "a@x.com" exPartnerA exCustomerB
    rfl rfl rfl rfl

end MarketingAutomation
